import Mathlib

/-!
Shallow embedding of `proto_nd_flow/reco/charge/calib_prompt_hits.py`
(class `CalibHitBuilder`): data model, calibration-table loading, the
per-chunk `run` computation, and the pure helpers it uses.

Machine floats of the source are modelled as exact rationals; the numpy
int64 buffer `hit_t0` is modelled as `List ℤ`, with the float→int cast
modelled as truncation toward zero (numpy C-cast semantics).
-/

/-- One larpix packet record (fields used by `CalibHitBuilder.run`).
`valid` models the packet being unmasked (no masked field). -/
structure Packet where
  valid : Bool
  packet_type : ℕ
  io_group : ℕ
  io_channel : ℕ
  chip_id : ℕ
  channel_id : ℕ
  dataword : ℕ
deriving DecidableEq

/-- One raw hit record (fields used by `run`): `valid` models the record
being unmasked, `ts_pps` is the clock-corrected packet timestamp. -/
structure RawHit where
  valid : Bool
  ts_pps : ℕ
deriving DecidableEq

/-- One entry of the ASIC ADC configuration lookup table. -/
structure ConfigEntry where
  vref_mv : ℚ
  vcm_mv : ℚ
deriving DecidableEq

/-- One entry of the pixel pedestal lookup table. -/
structure PedestalEntry where
  pedestal_mv : ℚ
deriving DecidableEq

/-- Default ASIC ADC configuration (`defaultdict` default in the source):
`vref_mv=1300, vcm_mv=288`. -/
def defaultConfiguration : ConfigEntry := { vref_mv := 1300, vcm_mv := 288 }

/-- Default pixel pedestal (`defaultdict` default in the source):
`pedestal_mv=580`. -/
def defaultPedestal : PedestalEntry := { pedestal_mv := 580 }

/-- One output record of the `calib_hits` dataset (dtype
`id, x, y, z, t_drift, ts_pps, Q, E`). -/
structure CalibHit where
  id : ℕ
  x : ℚ
  y : ℚ
  z : ℚ
  t_drift : ℚ
  ts_pps : ℕ
  Q : ℚ
  E : ℚ
deriving DecidableEq

/-- Placeholder hit used only as the default of `List.getD`. -/
def defaultCalibHit : CalibHit :=
  { id := 0, x := 0, y := 0, z := 0, t_drift := 0, ts_pps := 0, Q := 0, E := 0 }

/-- Placeholder packet used only as the default of `List.getD`. -/
def defaultPacket : Packet :=
  { valid := false, packet_type := 0, io_group := 0, io_channel := 0,
    chip_id := 0, channel_id := 0, dataword := 0 }

/-- Placeholder raw hit used only as the default of `List.getD`. -/
def defaultRawHit : RawHit := { valid := false, ts_pps := 0 }

/-- External resources consumed by `run`: `LArData.v_drift`,
`RunData.crs_ticks`, and the `Geometry` resource's lookups. -/
structure Resources where
  v_drift : ℚ
  crs_ticks : ℚ
  get_z_coordinate : ℕ → ℕ → ℚ → ℚ
  pixel_xy : ℕ → ℕ → ℕ → ℕ → ℚ × ℚ
  tile_id : ℕ → ℕ → ℕ

/-- `CalibHitBuilder.charge_from_dataword`:
`(dw / 256. * (vref - vcm) + vcm - ped) / 4.` -/
def charge_from_dataword (dw vref vcm ped : ℚ) : ℚ :=
  (dw / 256 * (vref - vcm) + vcm - ped) / 4

/-- numpy float64 → int64 C-cast: truncation toward zero, modelled on an
exact rational as `num.tdiv den`. -/
def truncToInt (q : ℚ) : ℤ :=
  q.num.tdiv q.den

/-- Association-list maps keyed by the stringified channel unique id
(string keys are modelled by the injective underlying naturals). -/
def ConfigMap : Type := List (ℕ × ConfigEntry)

/-- Pedestal association-list map (see `ConfigMap`). -/
def PedMap : Type := List (ℕ × PedestalEntry)

instance : DecidableEq ConfigMap := by
  unfold ConfigMap; infer_instance

instance : DecidableEq PedMap := by
  unfold PedMap; infer_instance

/-- Pure lookup-with-fallback: the value a `defaultdict` read yields. -/
def resolveD {β : Type} (default : β) (m : List (ℕ × β)) (k : ℕ) : β :=
  (m.lookup k).getD default

/-- One `defaultdict.__getitem__`: returns the stored value if present,
otherwise returns the default AND inserts it at the end of the mapping
(Python dict insertion order). -/
def ddGet {β : Type} (default : β) (m : List (ℕ × β)) (k : ℕ) : β × List (ℕ × β) :=
  match m.lookup k with
  | some v => (v, m)
  | none => (default, m ++ [(k, default)])

/-- A list-comprehension of `defaultdict` reads, threading the mapping
left to right. -/
def ddGetAll {β : Type} (default : β) : List (ℕ × β) → List ℕ → List β × List (ℕ × β)
  | m, [] => ([], m)
  | m, k :: ks =>
    let r := ddGet default m k
    let rest := ddGetAll default r.2 ks
    (r.1 :: rest.1, rest.2)

/-- Python `dict.__setitem__` on an insertion-ordered association list:
replace in place if the key exists, else append. -/
def dictSet {β : Type} (m : List (ℕ × β)) (k : ℕ) (v : β) : List (ℕ × β) :=
  match m with
  | [] => [(k, v)]
  | (k0, v0) :: rest => if k0 = k then (k, v) :: rest else (k0, v0) :: dictSet rest k v

/-- `CalibHitBuilder.load_pedestals`: if a pedestal file path is set and
the run is not simulated, merge the file's entries into the mapping;
otherwise touch nothing.  The `Bool` records whether a file was opened. -/
def load_pedestals (pedestal_file : String) (is_mc : Bool)
    (fileContents : List (ℕ × PedestalEntry)) (pedestal : PedMap) : PedMap × Bool :=
  if pedestal_file ≠ "" ∧ is_mc = false then
    (fileContents.foldl (fun acc kv => dictSet acc kv.1 kv.2) pedestal, true)
  else
    (pedestal, false)

/-- `CalibHitBuilder.load_configurations`: same shape as
`load_pedestals`, for the vref/vcm configuration mapping. -/
def load_configurations (configuration_file : String) (is_mc : Bool)
    (fileContents : List (ℕ × ConfigEntry)) (configuration : ConfigMap) : ConfigMap × Bool :=
  if configuration_file ≠ "" ∧ is_mc = false then
    (fileContents.foldl (fun acc kv => dictSet acc kv.1 kv.2) configuration, true)
  else
    (configuration, false)

/-- `hit_uniqueid`:
`((io_group * 100000 + io_channel) * 1000 + chip_id) * 64 + channel_id`. -/
def hit_uniqueid (p : Packet) : ℕ :=
  ((p.io_group * 100000 + p.io_channel) * 1000 + p.chip_id) * 64 + p.channel_id

/-- `n_not_masked` for one event's raw-hit group: the number of unmasked
entries. -/
def countNotMasked (g : List RawHit) : ℕ :=
  (g.filter (fun h => h.valid)).length

/-- `raw_hits.data[rh_mask]`: the flattened, mask-compacted raw hits of
the chunk, in original event-then-row order. -/
def rawHitsArr (raw_hits : List (List RawHit)) : List RawHit :=
  (raw_hits.map (fun g => g.filter (fun h => h.valid))).flatten

/-- `packets_data.data[mask]` with
`mask = (packet_type == 0) & unmasked`: the valid type-0 packets. -/
def packetsArr (packets : List Packet) : List Packet :=
  packets.filter (fun p => p.valid && p.packet_type == 0)

/-- numpy slice assignment `buf[start:start+len(vals)] = vals` (in-bounds
case). -/
def setSlice (buf : List ℤ) (start : ℕ) (vals : List ℤ) : List ℤ :=
  buf.take start ++ vals ++ buf.drop (start + vals.length)

/-- The `for t0_it, t0 in enumerate(t0_data['ts'])` fill loop: for each
event, write `n_not_masked` copies of the (int-cast) t0 into the buffer
at the running offset, then advance the offset. -/
def t0Fill (buf : List ℤ) (first_index : ℕ) :
    List (List RawHit) → List ℚ → List ℤ
  | g :: gs, t :: ts =>
    t0Fill (setSlice buf first_index (List.replicate (countNotMasked g) (truncToInt t)))
      (first_index + countNotMasked g) gs ts
  | _, _ => buf

/-- `hit_t0`: an int64 buffer of zeros, one slot per valid raw hit; left
all-zero when the event/t0 counts disagree (the source prints and, due to
the bare `exit` expression, continues), otherwise filled by the loop. -/
def hitT0 (raw_hits : List (List RawHit)) (t0s : List ℚ) : List ℤ :=
  if raw_hits.length ≠ t0s.length then
    List.replicate (rawHitsArr raw_hits).length 0
  else
    t0Fill (List.replicate (rawHitsArr raw_hits).length 0) 0 raw_hits t0s

/-- The per-event blocks the aligned fill loop produces:
`k` copies of the int-cast t0 for an event with `k` valid raw hits. -/
def t0Blocks : List (List RawHit) → List ℚ → List (List ℤ)
  | g :: gs, t :: ts =>
    List.replicate (countNotMasked g) (truncToInt t) :: t0Blocks gs ts
  | _, _ => []

/-- Running offset into the flat hit array before event `i`:
sum of valid-hit counts of the earlier events. -/
def offsetBefore (raw_hits : List (List RawHit)) (i : ℕ) : ℕ :=
  ((raw_hits.take i).map countNotMasked).sum

/-- One output row of `run` (row `i` of the chunk): drift time from the
timestamp and assigned t0, drift distance, geometry lookups, the
x/z axis swap, and the charge/energy conversion. -/
def mkRow (res : Resources) (start i : ℕ) (p : Packet) (h : RawHit) (t0i : ℤ)
    (vref vcm ped : ℚ) : CalibHit :=
  let drift_t : ℚ := (h.ts_pps : ℚ) - (t0i : ℚ)
  let drift_d : ℚ := drift_t * (res.v_drift * res.crs_ticks)
  let z : ℚ := res.get_z_coordinate p.io_group p.io_channel drift_d
  let xy : ℚ × ℚ := res.pixel_xy p.io_group p.io_channel p.chip_id p.channel_id
  { id := start + i
    x := z
    y := xy.2
    z := xy.1
    t_drift := drift_t
    ts_pps := h.ts_pps
    Q := charge_from_dataword (p.dataword : ℚ) vref vcm ped
    E := charge_from_dataword (p.dataword : ℚ) vref vcm ped * 23.6e-6 }

/-- Row-wise assembly of the hit array from the parallel per-row data
(valid packets, valid raw hits zipped with their t0s, and the resolved
vref/vcm/pedestal values). -/
def assemble (res : Resources) (start : ℕ) :
    ℕ → List Packet → List (RawHit × ℤ) → List ℚ → List ℚ → List ℚ → List CalibHit
  | i, p :: ps, ht :: hts, a :: vas, b :: vbs, c :: vcs =>
    mkRow res start i p ht.1 ht.2 a b c :: assemble res start (i + 1) ps hts vas vbs vcs
  | _, _, _, _, _, _ => []

/-- The `hit_uniqueid_str` list of the chunk's valid packets. -/
def uidsOf (packets : List Packet) : List ℕ :=
  (packetsArr packets).map hit_uniqueid

/-- The `vref = [configuration[uid]['vref_mv'] for uid in ...]`
comprehension (a pass of `defaultdict` reads). -/
def vrefPass (configuration : ConfigMap) (packets : List Packet) :
    List ConfigEntry × ConfigMap :=
  ddGetAll defaultConfiguration configuration (uidsOf packets)

/-- The subsequent `vcm` comprehension, reading the mapping as left by
the `vref` pass. -/
def vcmPass (configuration : ConfigMap) (packets : List Packet) :
    List ConfigEntry × ConfigMap :=
  ddGetAll defaultConfiguration (vrefPass configuration packets).2 (uidsOf packets)

/-- The `ped` comprehension over the pedestal `defaultdict`. -/
def pedPass (pedestal : PedMap) (packets : List Packet) :
    List PedestalEntry × PedMap :=
  ddGetAll defaultPedestal pedestal (uidsOf packets)

/-- Result of one `run` invocation: the written hit array, the (possibly
`defaultdict`-grown) calibration mappings, and the store's next free
output slot after `reserve_data`. -/
structure RunOutput where
  hits : List CalibHit
  configuration : ConfigMap
  pedestal : PedMap
  next : ℕ
deriving DecidableEq

/-- Placeholder output used only as the default of `Option.getD`. -/
def defaultRunOutput : RunOutput :=
  { hits := [], configuration := [], pedestal := [], next := 0 }

/-- `CalibHitBuilder.run` on one chunk.  `next` is the store's next free
slot; `reserve_data` returns the slice `[next, next + n)`.  With `n = 0`
an empty array is written and the mappings are untouched.  Otherwise the
rows are assembled from the valid packets, the flat valid raw hits zipped
with `hit_t0`, and the resolved calibration values; `none` models the
numpy shape error raised when the flat valid-raw-hit count differs from
the valid-packet count. -/
def run (res : Resources) (configuration : ConfigMap) (pedestal : PedMap)
    (next : ℕ) (packets : List Packet) (raw_hits : List (List RawHit))
    (t0s : List ℚ) : Option RunOutput :=
  if (packetsArr packets).length = 0 then
    some { hits := [], configuration := configuration, pedestal := pedestal,
           next := next + (packetsArr packets).length }
  else if (rawHitsArr raw_hits).length = (packetsArr packets).length then
    some { hits := assemble res next 0 (packetsArr packets)
                     ((rawHitsArr raw_hits).zip (hitT0 raw_hits t0s))
                     ((vrefPass configuration packets).1.map (fun e => e.vref_mv))
                     ((vcmPass configuration packets).1.map (fun e => e.vcm_mv))
                     ((pedPass pedestal packets).1.map (fun e => e.pedestal_mv))
           configuration := (vcmPass configuration packets).2
           pedestal := (pedPass pedestal packets).2
           next := next + (packetsArr packets).length }
  else
    none

/-! ### Helper lemmas: option, association-list lookup, defaultdict reads -/

/-- A non-`none` option equals `some` of its `getD` value. -/
lemma option_eq_some_getD {α : Type} (o : Option α) (d : α) (h : o.isSome = true) :
    o = some (o.getD d) := by
  cases o with
  | none => simp at h
  | some v => rfl

lemma ddGet_fst {β : Type} (d : β) (m : List (ℕ × β)) (k : ℕ) :
    (ddGet d m k).1 = resolveD d m k := by
  unfold ddGet resolveD
  cases h : m.lookup k <;> simp [h]

lemma resolveD_ddGet_snd {β : Type} (d : β) (m : List (ℕ × β)) (k k' : ℕ) :
    resolveD d (ddGet d m k).2 k' = resolveD d m k' := by
  unfold ddGet
  cases h : m.lookup k with
  | some v => simp
  | none =>
    simp only [resolveD, List.lookup_append]
    cases h' : m.lookup k' with
    | some w => simp [h']
    | none =>
      cases hb : k' == k <;> simp [h', List.lookup_cons, hb]

lemma ddGetAll_fst {β : Type} (d : β) (m : List (ℕ × β)) (ks : List ℕ) :
    (ddGetAll d m ks).1 = ks.map (resolveD d m) := by
  induction ks generalizing m with
  | nil => rfl
  | cons k ks ih =>
    simp only [ddGetAll, ddGet_fst, List.map_cons, ih]
    refine congrArg _ (List.map_congr_left fun a _ => ?_)
    exact resolveD_ddGet_snd d m k a

lemma resolveD_ddGetAll_snd {β : Type} (d : β) (m : List (ℕ × β)) (ks : List ℕ) (k : ℕ) :
    resolveD d (ddGetAll d m ks).2 k = resolveD d m k := by
  induction ks generalizing m with
  | nil => rfl
  | cons k0 ks ih =>
    simp only [ddGetAll]
    rw [ih, resolveD_ddGet_snd]

/-! ### Helper lemmas: `dictSet` and file merging -/

lemma dictSet_lookup_self {β : Type} (m : List (ℕ × β)) (k : ℕ) (v : β) :
    (dictSet m k v).lookup k = some v := by
  induction m with
  | nil => simp [dictSet, List.lookup_cons]
  | cons kv rest ih =>
    obtain ⟨k0, v0⟩ := kv
    by_cases h : k0 = k
    · simp [dictSet, h, List.lookup_cons]
    · simp only [dictSet, if_neg h, List.lookup_cons]
      have : (k == k0) = false := by
        simp [Ne.symm h]
      simp [this, ih]

lemma dictSet_lookup_ne {β : Type} (m : List (ℕ × β)) (k k' : ℕ) (v : β) (h : k' ≠ k) :
    (dictSet m k v).lookup k' = m.lookup k' := by
  have hb : (k' == k) = false := beq_eq_false_iff_ne.mpr h
  induction m with
  | nil => simp [dictSet, List.lookup_cons, hb]
  | cons kv rest ih =>
    obtain ⟨k0, v0⟩ := kv
    by_cases h0 : k0 = k
    · subst h0
      simp [dictSet, List.lookup_cons, hb]
    · simp only [dictSet, if_neg h0, List.lookup_cons]
      cases hb0 : k' == k0 <;> simp [hb0, ih]

/-- A successful association-list lookup means the key occurs among the
stored keys. -/
lemma lookup_some_mem_keys {β : Type} (m : List (ℕ × β)) (k : ℕ) (v : β)
    (h : m.lookup k = some v) : k ∈ m.map Prod.fst := by
  induction m with
  | nil => simp at h
  | cons kv rest ih =>
    obtain ⟨k0, v0⟩ := kv
    simp only [List.lookup_cons] at h
    cases hb : k == k0 with
    | true =>
      have : k = k0 := by simpa using hb
      simp [this]
    | false =>
      simp only [hb] at h
      simpa using Or.inr (by simpa using ih h)

lemma foldl_dictSet_lookup_none {β : Type} (file : List (ℕ × β)) (m : List (ℕ × β)) (k : ℕ)
    (h : file.lookup k = none) :
    (file.foldl (fun acc kv => dictSet acc kv.1 kv.2) m).lookup k = m.lookup k := by
  induction file generalizing m with
  | nil => rfl
  | cons kv rest ih =>
    obtain ⟨k0, v0⟩ := kv
    simp only [List.lookup_cons] at h
    cases hb : k == k0 with
    | true =>
      simp [hb] at h
    | false =>
      simp only [hb] at h
      have hne : k ≠ k0 := by
        intro hkk
        subst hkk
        simp at hb
      simp only [List.foldl_cons, ih _ h]
      exact dictSet_lookup_ne m k0 k v0 hne

lemma foldl_dictSet_lookup_some {β : Type} (file : List (ℕ × β)) (m : List (ℕ × β)) (k : ℕ)
    (v : β) (hnd : (file.map Prod.fst).Nodup) (h : file.lookup k = some v) :
    (file.foldl (fun acc kv => dictSet acc kv.1 kv.2) m).lookup k = some v := by
  induction file generalizing m with
  | nil => simp at h
  | cons kv rest ih =>
    obtain ⟨k0, v0⟩ := kv
    simp only [List.map_cons, List.nodup_cons] at hnd
    simp only [List.lookup_cons] at h
    cases hb : k == k0 with
    | true =>
      have hk : k = k0 := by
        simpa using hb
      simp only [hb] at h
      subst hk
      have hrest : rest.lookup k = none := by
        cases hr : rest.lookup k with
        | none => rfl
        | some w => exact absurd (lookup_some_mem_keys rest k w hr) hnd.1
      simp only [List.foldl_cons, foldl_dictSet_lookup_none rest _ k hrest]
      rw [dictSet_lookup_self]
      simpa using h
    | false =>
      simp only [hb] at h
      simp only [List.foldl_cons]
      exact ih (dictSet m k0 v0) hnd.2 h

/-! ### Helper lemmas: the t0 fill loop -/

lemma countNotMasked_nil : countNotMasked [] = 0 := rfl

lemma rawHitsArr_length (raw_hits : List (List RawHit)) :
    (rawHitsArr raw_hits).length = (raw_hits.map countNotMasked).sum := by
  unfold rawHitsArr
  rw [List.length_flatten, List.map_map]
  rfl

lemma t0Blocks_map_length (gs : List (List RawHit)) (ts : List ℚ)
    (h : gs.length = ts.length) :
    (t0Blocks gs ts).map List.length = gs.map countNotMasked := by
  induction gs generalizing ts with
  | nil => cases ts <;> simp [t0Blocks]
  | cons g gs ih =>
    cases ts with
    | nil => simp at h
    | cons t ts =>
      simp only [t0Blocks, List.map_cons, List.length_replicate]
      rw [ih ts (by simpa using h)]

lemma t0Fill_spec (gs : List (List RawHit)) (ts : List ℚ) (pre suf : List ℤ)
    (hlen : gs.length = ts.length)
    (hsuf : suf.length = (gs.map countNotMasked).sum) :
    t0Fill (pre ++ suf) pre.length gs ts = pre ++ (t0Blocks gs ts).flatten := by
  induction gs generalizing ts pre suf with
  | nil =>
    cases ts with
    | nil =>
      simp only [List.map_nil, List.sum_nil, List.length_eq_zero] at hsuf
      simp [t0Fill, t0Blocks, hsuf]
    | cons t ts => simp at hlen
  | cons g gs ih =>
    cases ts with
    | nil => simp at hlen
    | cons t ts =>
      simp only [List.map_cons, List.sum_cons] at hsuf
      have hk : countNotMasked g ≤ suf.length := by omega
      simp only [t0Fill, t0Blocks, List.flatten_cons]
      have hslice :
          setSlice (pre ++ suf) pre.length
              (List.replicate (countNotMasked g) (truncToInt t))
            = (pre ++ List.replicate (countNotMasked g) (truncToInt t)) ++ suf.drop (countNotMasked g) := by
        unfold setSlice
        rw [List.take_left, List.length_replicate, List.drop_append, List.append_assoc]
      rw [hslice]
      have hfirst : pre.length + countNotMasked g
          = (pre ++ List.replicate (countNotMasked g) (truncToInt t)).length := by
        simp
      rw [hfirst, ih ts (pre ++ List.replicate (countNotMasked g) (truncToInt t))
            (suf.drop (countNotMasked g)) (by simpa using hlen) (by simp; omega)]
      simp [List.append_assoc]

lemma hitT0_aligned (raw_hits : List (List RawHit)) (t0s : List ℚ)
    (h : raw_hits.length = t0s.length) :
    hitT0 raw_hits t0s = (t0Blocks raw_hits t0s).flatten := by
  unfold hitT0
  rw [if_neg (by omega)]
  have hbuf : (List.replicate (rawHitsArr raw_hits).length (0 : ℤ)).length
      = (raw_hits.map countNotMasked).sum := by
    rw [List.length_replicate, rawHitsArr_length]
  have := t0Fill_spec raw_hits t0s [] (List.replicate (rawHitsArr raw_hits).length 0) h hbuf
  simpa using this

lemma hitT0_length (raw_hits : List (List RawHit)) (t0s : List ℚ) :
    (hitT0 raw_hits t0s).length = (rawHitsArr raw_hits).length := by
  by_cases h : raw_hits.length = t0s.length
  · rw [hitT0_aligned raw_hits t0s h, List.length_flatten,
      t0Blocks_map_length raw_hits t0s h, rawHitsArr_length]
  · unfold hitT0
    rw [if_pos h, List.length_replicate]

lemma offsetBefore_zero (raw_hits : List (List RawHit)) : offsetBefore raw_hits 0 = 0 := rfl

lemma offsetBefore_succ (raw_hits : List (List RawHit)) (i : ℕ) (h : i < raw_hits.length) :
    offsetBefore raw_hits (i + 1)
      = offsetBefore raw_hits i + countNotMasked (raw_hits.getD i []) := by
  unfold offsetBefore
  rw [List.take_succ, List.map_append, List.sum_append, List.getD_eq_getElem _ _ h]
  simp [List.getElem?_eq_getElem h]

lemma t0Blocks_flatten_drop (gs : List (List RawHit)) (ts : List ℚ) (i : ℕ)
    (hlen : gs.length = ts.length) (hi : i ≤ gs.length) :
    ((t0Blocks gs ts).flatten).drop (offsetBefore gs i)
      = (t0Blocks (gs.drop i) (ts.drop i)).flatten := by
  induction i generalizing gs ts with
  | zero => simp [offsetBefore_zero]
  | succ i ih =>
    cases gs with
    | nil => simp at hi
    | cons g gs =>
      cases ts with
      | nil => simp at hlen
      | cons t ts =>
        have hoff : offsetBefore (g :: gs) (i + 1) = countNotMasked g + offsetBefore gs i := by
          unfold offsetBefore
          simp [List.take_succ_cons]
        rw [hoff]
        simp only [t0Blocks, List.flatten_cons, List.drop_succ_cons]
        have hdrop : ∀ (a : ℕ) (l₁ l₂ : List ℤ) (j : ℕ), l₁.length = a →
            (l₁ ++ l₂).drop (a + j) = l₂.drop j := by
          intro a l₁ l₂ j h
          subst h
          exact List.drop_append j
        rw [hdrop (countNotMasked g) _ _ _ (by simp)]
        exact ih gs ts (by simpa using hlen) (by simpa using hi)

/-! ### Helper lemmas: row assembly and `run` -/

lemma assemble_length (res : Resources) (start : ℕ) :
    ∀ (i : ℕ) (ps : List Packet) (hts : List (RawHit × ℤ)) (vas vbs vcs : List ℚ),
      hts.length = ps.length → vas.length = ps.length → vbs.length = ps.length →
      vcs.length = ps.length →
      (assemble res start i ps hts vas vbs vcs).length = ps.length := by
  intro i ps
  induction ps generalizing i with
  | nil =>
    intro hts vas vbs vcs _ _ _ _
    cases hts <;> cases vas <;> cases vbs <;> cases vcs <;> rfl
  | cons p ps ih =>
    intro hts vas vbs vcs h1 h2 h3 h4
    cases hts with
    | nil => simp at h1
    | cons ht hts =>
      cases vas with
      | nil => simp at h2
      | cons a vas =>
        cases vbs with
        | nil => simp at h3
        | cons b vbs =>
          cases vcs with
          | nil => simp at h4
          | cons c vcs =>
            simp only [assemble, List.length_cons]
            rw [ih (i + 1) hts vas vbs vcs (by simpa using h1) (by simpa using h2)
              (by simpa using h3) (by simpa using h4)]

lemma assemble_getD (res : Resources) (start : ℕ) :
    ∀ (i : ℕ) (ps : List Packet) (hts : List (RawHit × ℤ)) (vas vbs vcs : List ℚ) (j : ℕ),
      hts.length = ps.length → vas.length = ps.length → vbs.length = ps.length →
      vcs.length = ps.length → j < ps.length →
      (assemble res start i ps hts vas vbs vcs).getD j defaultCalibHit
        = mkRow res start (i + j) (ps.getD j defaultPacket)
            (hts.getD j (defaultRawHit, 0)).1 (hts.getD j (defaultRawHit, 0)).2
            (vas.getD j 0) (vbs.getD j 0) (vcs.getD j 0) := by
  intro i ps
  induction ps generalizing i with
  | nil =>
    intro hts vas vbs vcs j _ _ _ _ hj
    simp at hj
  | cons p ps ih =>
    intro hts vas vbs vcs j h1 h2 h3 h4 hj
    cases hts with
    | nil => simp at h1
    | cons ht hts =>
      cases vas with
      | nil => simp at h2
      | cons a vas =>
        cases vbs with
        | nil => simp at h3
        | cons b vbs =>
          cases vcs with
          | nil => simp at h4
          | cons c vcs =>
            cases j with
            | zero => simp [assemble]
            | succ j =>
              simp only [assemble, List.getD_cons_succ]
              rw [ih (i + 1) hts vas vbs vcs j (by simpa using h1) (by simpa using h2)
                (by simpa using h3) (by simpa using h4) (by simpa using hj)]
              ring_nf

/-- The value rows of the `vref` comprehension are the pure
lookup-with-fallback resolutions against the incoming mapping. -/
lemma vrefPass_fst (configuration : ConfigMap) (packets : List Packet) :
    (vrefPass configuration packets).1
      = (uidsOf packets).map (resolveD defaultConfiguration configuration) := by
  unfold vrefPass
  exact ddGetAll_fst _ _ _

lemma vcmPass_fst (configuration : ConfigMap) (packets : List Packet) :
    (vcmPass configuration packets).1
      = (uidsOf packets).map (resolveD defaultConfiguration configuration) := by
  unfold vcmPass
  rw [ddGetAll_fst]
  refine List.map_congr_left fun a _ => ?_
  unfold vrefPass
  exact resolveD_ddGetAll_snd _ _ _ _

lemma pedPass_fst (pedestal : PedMap) (packets : List Packet) :
    (pedPass pedestal packets).1
      = (uidsOf packets).map (resolveD defaultPedestal pedestal) := by
  unfold pedPass
  exact ddGetAll_fst _ _ _

/-- Master characterization of a successful `run`: the hit count and the
store cursor, and each row as `mkRow` of the row-aligned inputs with the
purely-resolved calibration values. -/
lemma run_spec (res : Resources) (configuration : ConfigMap) (pedestal : PedMap)
    (next : ℕ) (packets : List Packet) (raw_hits : List (List RawHit)) (t0s : List ℚ)
    (out : RunOutput)
    (h : run res configuration pedestal next packets raw_hits t0s = some out) :
    out.hits.length = (packetsArr packets).length ∧
    out.next = next + (packetsArr packets).length ∧
    ∀ i, i < out.hits.length →
      out.hits.getD i defaultCalibHit
        = mkRow res next i ((packetsArr packets).getD i defaultPacket)
            ((rawHitsArr raw_hits).getD i defaultRawHit)
            ((hitT0 raw_hits t0s).getD i 0)
            (resolveD defaultConfiguration configuration
              (hit_uniqueid ((packetsArr packets).getD i defaultPacket))).vref_mv
            (resolveD defaultConfiguration configuration
              (hit_uniqueid ((packetsArr packets).getD i defaultPacket))).vcm_mv
            (resolveD defaultPedestal pedestal
              (hit_uniqueid ((packetsArr packets).getD i defaultPacket))).pedestal_mv := by
  unfold run at h
  by_cases hn : (packetsArr packets).length = 0
  · rw [if_pos hn] at h
    cases h
    refine ⟨by simpa using hn.symm, rfl, ?_⟩
    intro i hi
    simp at hi
  · rw [if_neg hn] at h
    by_cases ha : (rawHitsArr raw_hits).length = (packetsArr packets).length
    · rw [if_pos ha] at h
      cases h
      have hzlen : ((rawHitsArr raw_hits).zip (hitT0 raw_hits t0s)).length
          = (packetsArr packets).length := by
        rw [List.length_zip, hitT0_length, ha]
        exact Nat.min_self _
      have hva : ((vrefPass configuration packets).1.map (fun e => e.vref_mv)).length
          = (packetsArr packets).length := by
        rw [List.length_map, vrefPass_fst, List.length_map]
        unfold uidsOf
        rw [List.length_map]
      have hvb : ((vcmPass configuration packets).1.map (fun e => e.vcm_mv)).length
          = (packetsArr packets).length := by
        rw [List.length_map, vcmPass_fst, List.length_map]
        unfold uidsOf
        rw [List.length_map]
      have hvc : ((pedPass pedestal packets).1.map (fun e => e.pedestal_mv)).length
          = (packetsArr packets).length := by
        rw [List.length_map, pedPass_fst, List.length_map]
        unfold uidsOf
        rw [List.length_map]
      have hlen := assemble_length res next 0 (packetsArr packets) _ _ _ _ hzlen hva hvb hvc
      refine ⟨hlen, rfl, ?_⟩
      intro i hi
      rw [hlen] at hi
      rw [assemble_getD res next 0 (packetsArr packets) _ _ _ _ i hzlen hva hvb hvc hi]
      have hiz : i < ((rawHitsArr raw_hits).zip (hitT0 raw_hits t0s)).length := by
        rw [hzlen]; exact hi
      have hira : i < (rawHitsArr raw_hits).length := by rw [ha]; exact hi
      have hit0 : i < (hitT0 raw_hits t0s).length := by
        rw [hitT0_length, ha]; exact hi
      have hzget : (((rawHitsArr raw_hits).zip (hitT0 raw_hits t0s)).getD i (defaultRawHit, 0))
          = ((rawHitsArr raw_hits).getD i defaultRawHit, (hitT0 raw_hits t0s).getD i 0) := by
        rw [List.getD_eq_getElem _ _ hiz, List.getElem_zip,
          List.getD_eq_getElem _ _ hira, List.getD_eq_getElem _ _ hit0]
      have hu : i < (uidsOf packets).length := by
        unfold uidsOf
        rw [List.length_map]
        exact hi
      have hvaget : (((vrefPass configuration packets).1.map (fun e => e.vref_mv)).getD i 0)
          = (resolveD defaultConfiguration configuration
              (hit_uniqueid ((packetsArr packets).getD i defaultPacket))).vref_mv := by
        rw [vrefPass_fst, List.map_map]
        have hl : i < ((uidsOf packets).map
            ((fun e : ConfigEntry => e.vref_mv)
              ∘ resolveD defaultConfiguration configuration)).length := by
          rw [List.length_map]; exact hu
        rw [List.getD_eq_getElem _ _ hl, List.getElem_map]
        unfold uidsOf
        rw [List.getElem_map, List.getD_eq_getElem _ _ hi]
        rfl
      have hvbget : (((vcmPass configuration packets).1.map (fun e => e.vcm_mv)).getD i 0)
          = (resolveD defaultConfiguration configuration
              (hit_uniqueid ((packetsArr packets).getD i defaultPacket))).vcm_mv := by
        rw [vcmPass_fst, List.map_map]
        have hl : i < ((uidsOf packets).map
            ((fun e : ConfigEntry => e.vcm_mv)
              ∘ resolveD defaultConfiguration configuration)).length := by
          rw [List.length_map]; exact hu
        rw [List.getD_eq_getElem _ _ hl, List.getElem_map]
        unfold uidsOf
        rw [List.getElem_map, List.getD_eq_getElem _ _ hi]
        rfl
      have hvcget : (((pedPass pedestal packets).1.map (fun e => e.pedestal_mv)).getD i 0)
          = (resolveD defaultPedestal pedestal
              (hit_uniqueid ((packetsArr packets).getD i defaultPacket))).pedestal_mv := by
        rw [pedPass_fst, List.map_map]
        have hl : i < ((uidsOf packets).map
            ((fun e : PedestalEntry => e.pedestal_mv)
              ∘ resolveD defaultPedestal pedestal)).length := by
          rw [List.length_map]; exact hu
        rw [List.getD_eq_getElem _ _ hl, List.getElem_map]
        unfold uidsOf
        rw [List.getElem_map, List.getD_eq_getElem _ _ hi]
        rfl
      rw [hzget, hvaget, hvbget, hvcget]
      simp
    · rw [if_neg ha] at h
      cases h

/-- A successful `run` never changes what any key resolves to in either
calibration mapping (it can only append defaulted entries). -/
lemma run_maps_spec (res : Resources) (configuration : ConfigMap) (pedestal : PedMap)
    (next : ℕ) (packets : List Packet) (raw_hits : List (List RawHit)) (t0s : List ℚ)
    (out : RunOutput)
    (h : run res configuration pedestal next packets raw_hits t0s = some out) :
    (∀ k, resolveD defaultConfiguration out.configuration k
        = resolveD defaultConfiguration configuration k) ∧
    (∀ k, resolveD defaultPedestal out.pedestal k = resolveD defaultPedestal pedestal k) := by
  unfold run at h
  by_cases hn : (packetsArr packets).length = 0
  · rw [if_pos hn] at h
    cases h
    exact ⟨fun k => rfl, fun k => rfl⟩
  · rw [if_neg hn] at h
    by_cases ha : (rawHitsArr raw_hits).length = (packetsArr packets).length
    · rw [if_pos ha] at h
      cases h
      constructor
      · intro k
        show resolveD defaultConfiguration (vcmPass configuration packets).2 k = _
        unfold vcmPass vrefPass
        rw [resolveD_ddGetAll_snd, resolveD_ddGetAll_snd]
      · intro k
        show resolveD defaultPedestal (pedPass pedestal packets).2 k = _
        unfold pedPass
        rw [resolveD_ddGetAll_snd]
    · rw [if_neg ha] at h
      cases h

/-! ### Concrete scenarios used by witnesses and counterexamples -/

/-- A concrete resource bundle: unit drift scale, identity z-from-drift,
constant pixel lookup. -/
def res0 : Resources :=
  { v_drift := 1, crs_ticks := 1,
    get_z_coordinate := fun _ _ d => d,
    pixel_xy := fun _ _ _ _ => (7, 9),
    tile_id := fun _ _ => 0 }

/-- A valid type-0 packet with mid-scale dataword 128. -/
def packetA : Packet :=
  { valid := true, packet_type := 0, io_group := 1, io_channel := 2,
    chip_id := 3, channel_id := 4, dataword := 128 }

/-- A well-formed chunk: two valid type-0 packets, one event with two
valid raw hits, one t0. -/
def chunkPackets : List Packet := [packetA, packetA]

def chunkRawHits : List (List RawHit) :=
  [[{ valid := true, ts_pps := 10 }, { valid := true, ts_pps := 20 }]]

def chunkT0s : List ℚ := [2]

def outA : RunOutput :=
  (run res0 [] [] 0 chunkPackets chunkRawHits chunkT0s).getD defaultRunOutput

/-- A mismatched chunk: two raw-hit event groups but a single t0. -/
def mmRawHits : List (List RawHit) :=
  [[{ valid := true, ts_pps := 10 }], [{ valid := true, ts_pps := 20 }]]

def mmT0s : List ℚ := [2]

/-! ### Claims -/

/-- C1: the claim says a chunk with `len(raw_hits) != len(t0_data['ts'])`
must raise an error and write no hit array.  The code instead prints and
evaluates the bare name `exit` (a no-op, the call parentheses are
missing), so it proceeds: on a 2-group/1-t0 chunk `run` still produces
and writes a full 2-row hit array, with the hit t0s left at the zero
initialization (here `t_drift = ts_pps - 0 = 10`). -/
theorem calib_C1_code_bug :
    mmRawHits.length ≠ mmT0s.length ∧
    (run res0 [] [] 0 chunkPackets mmRawHits mmT0s).isSome = true ∧
    ((run res0 [] [] 0 chunkPackets mmRawHits mmT0s).getD defaultRunOutput).hits.length = 2 ∧
    (((run res0 [] [] 0 chunkPackets mmRawHits mmT0s).getD
        defaultRunOutput).hits.getD 0 defaultCalibHit).t_drift = 10 := by
  refine ⟨by decide, by decide, by decide, ?_⟩
  with_unfolding_all decide

/-- C2: `charge_from_dataword` is exactly
`(dw/256 * (vref - vcm) + vcm - ped) / 4`; at `dw = 128` with the default
calibration it returns `53.5`; and every hit written by `run` has
`E = Q * 23.6e-6`. -/
theorem calib_C2 (res : Resources) (configuration : ConfigMap) (pedestal : PedMap)
    (next : ℕ) (packets : List Packet) (raw_hits : List (List RawHit)) (t0s : List ℚ)
    (out : RunOutput)
    (h : run res configuration pedestal next packets raw_hits t0s = some out)
    (i : ℕ) (hi : i < out.hits.length) :
    (∀ dw vref vcm ped : ℚ,
      charge_from_dataword dw vref vcm ped = (dw / 256 * (vref - vcm) + vcm - ped) / 4) ∧
    charge_from_dataword 128 1300 288 580 = 53.5 ∧
    (out.hits.getD i defaultCalibHit).E = (out.hits.getD i defaultCalibHit).Q * 23.6e-6 := by
  refine ⟨fun dw vref vcm ped => rfl, by norm_num [charge_from_dataword], ?_⟩
  rw [(run_spec res configuration pedestal next packets raw_hits t0s out h).2.2 i hi]
  rfl

theorem calib_C2_witness :
    charge_from_dataword 128 1300 288 580 = 53.5 ∧
    (outA.hits.getD 0 defaultCalibHit).E = (outA.hits.getD 0 defaultCalibHit).Q * 23.6e-6 := by
  have h := calib_C2 res0 [] [] 0 chunkPackets chunkRawHits chunkT0s outA
    (option_eq_some_getD _ defaultRunOutput (by decide)) 0 (by decide)
  exact ⟨h.2.1, h.2.2⟩

/-- A one-event chunk whose t0 is fractional. -/
def rawC3 : List (List RawHit) := [[{ valid := true, ts_pps := 5 }]]

def t0sC3 : List ℚ := [1 / 2]

/-- C3 (counterexample): the claim says each of the event's per-hit t0
entries equals the event's t0 value `T`.  With `T = 1/2` the aligned fill
loop stores the int-cast value `0`, not `1/2`: the buffer is an integer
array, so the produced entry differs from `T`. -/
theorem calib_C3_counterexample :
    rawC3.length = t0sC3.length ∧
    (hitT0 rawC3 t0sC3).length = 1 ∧
    ¬ (((hitT0 rawC3 t0sC3).getD 0 0 : ℚ) = t0sC3.getD 0 0) := by
  with_unfolding_all decide

/-- C3 (amended): for every chunk whose event count equals its t0 count
and every event index `i` with `k` valid raw hits, the flat t0 array has
exactly `k` entries for that event, contiguous at the running offset (the
offset then advances by `k`), all equal to the INTEGER TRUNCATION of the
event's t0 value; and the total buffer length is the total number of
valid raw hits, which is the sum of the per-event counts. -/
theorem calib_C3_amended (raw_hits : List (List RawHit)) (t0s : List ℚ)
    (hlen : raw_hits.length = t0s.length) (i : ℕ) (hi : i < t0s.length) :
    ((hitT0 raw_hits t0s).drop (offsetBefore raw_hits i)).take
        (countNotMasked (raw_hits.getD i []))
      = List.replicate (countNotMasked (raw_hits.getD i []))
          (truncToInt (t0s.getD i 0)) ∧
    offsetBefore raw_hits (i + 1)
      = offsetBefore raw_hits i + countNotMasked (raw_hits.getD i []) ∧
    (hitT0 raw_hits t0s).length = (rawHitsArr raw_hits).length ∧
    (raw_hits.map countNotMasked).sum = (rawHitsArr raw_hits).length := by
  have hig : i < raw_hits.length := by omega
  refine ⟨?_, offsetBefore_succ raw_hits i hig, hitT0_length raw_hits t0s,
    (rawHitsArr_length raw_hits).symm⟩
  rw [hitT0_aligned raw_hits t0s hlen,
    t0Blocks_flatten_drop raw_hits t0s i hlen (Nat.le_of_lt hig)]
  rw [List.drop_eq_getElem_cons hig, List.drop_eq_getElem_cons hi]
  simp only [t0Blocks, List.flatten_cons]
  have htake : ∀ (a : ℕ) (l₁ l₂ : List ℤ), l₁.length = a → (l₁ ++ l₂).take a = l₁ := by
    intro a l₁ l₂ hh
    subst hh
    exact List.take_left l₁ l₂
  rw [htake (countNotMasked (raw_hits.getD i []))
    (List.replicate (countNotMasked raw_hits[i]) (truncToInt t0s[i])) _
    (by rw [List.length_replicate, List.getD_eq_getElem _ _ hig])]
  rw [List.getD_eq_getElem _ _ hig, List.getD_eq_getElem _ _ hi]

/-- A two-event chunk (one masked hit in the first event) with integer
t0s, for the C3 witness. -/
def rawW3 : List (List RawHit) :=
  [[{ valid := true, ts_pps := 5 }, { valid := false, ts_pps := 6 }],
   [{ valid := true, ts_pps := 7 }]]

def t0sW3 : List ℚ := [3, 4]

theorem calib_C3_amended_witness :
    ((hitT0 rawW3 t0sW3).drop (offsetBefore rawW3 1)).take
        (countNotMasked (rawW3.getD 1 []))
      = List.replicate (countNotMasked (rawW3.getD 1 []))
          (truncToInt (t0sW3.getD 1 0)) ∧
    offsetBefore rawW3 (1 + 1) = offsetBefore rawW3 1 + countNotMasked (rawW3.getD 1 []) ∧
    (hitT0 rawW3 t0sW3).length = (rawHitsArr rawW3).length ∧
    (rawW3.map countNotMasked).sum = (rawHitsArr rawW3).length :=
  calib_C3_amended rawW3 t0sW3 (by decide) 1 (by decide)

/-- C4: after loading an override file into an initially-empty mapping
(real data, non-empty path), a key absent from the file resolves to the
defaults (`vref_mv=1300, vcm_mv=288` / `pedestal_mv=580`), and a key
present in the file resolves to the file's entry exactly. -/
theorem calib_C4 (cfname pfname : String) (hcf : cfname ≠ "") (hpf : pfname ≠ "")
    (cfile : List (ℕ × ConfigEntry)) (pfile : List (ℕ × PedestalEntry))
    (hcn : (cfile.map Prod.fst).Nodup) (hpn : (pfile.map Prod.fst).Nodup) (k : ℕ) :
    (cfile.lookup k = none →
      resolveD defaultConfiguration (load_configurations cfname false cfile []).1 k
        = { vref_mv := 1300, vcm_mv := 288 }) ∧
    (∀ v, cfile.lookup k = some v →
      resolveD defaultConfiguration (load_configurations cfname false cfile []).1 k = v) ∧
    (pfile.lookup k = none →
      resolveD defaultPedestal (load_pedestals pfname false pfile []).1 k
        = { pedestal_mv := 580 }) ∧
    (∀ v, pfile.lookup k = some v →
      resolveD defaultPedestal (load_pedestals pfname false pfile []).1 k = v) := by
  have hc : (load_configurations cfname false cfile []).1
      = cfile.foldl (fun acc kv => dictSet acc kv.1 kv.2) [] := by
    unfold load_configurations
    rw [if_pos ⟨hcf, rfl⟩]
    rfl
  have hp : (load_pedestals pfname false pfile []).1
      = pfile.foldl (fun acc kv => dictSet acc kv.1 kv.2) [] := by
    unfold load_pedestals
    rw [if_pos ⟨hpf, rfl⟩]
    rfl
  refine ⟨?_, ?_, ?_, ?_⟩
  · intro hnone
    rw [hc]
    unfold resolveD
    rw [foldl_dictSet_lookup_none cfile [] k hnone]
    rfl
  · intro v hv
    rw [hc]
    unfold resolveD
    rw [foldl_dictSet_lookup_some cfile [] k v hcn hv]
    rfl
  · intro hnone
    rw [hp]
    unfold resolveD
    rw [foldl_dictSet_lookup_none pfile [] k hnone]
    rfl
  · intro v hv
    rw [hp]
    unfold resolveD
    rw [foldl_dictSet_lookup_some pfile [] k v hpn hv]
    rfl

/-- Concrete override files keyed by channel-unique-id 5. -/
def cfgFileA : List (ℕ × ConfigEntry) := [(5, { vref_mv := 1000, vcm_mv := 200 })]

def pedFileA : List (ℕ × PedestalEntry) := [(5, { pedestal_mv := 600 })]

theorem calib_C4_witness :
    resolveD defaultConfiguration
        (load_configurations "evd_config.json" false cfgFileA []).1 7
      = { vref_mv := 1300, vcm_mv := 288 } ∧
    resolveD defaultConfiguration
        (load_configurations "evd_config.json" false cfgFileA []).1 5
      = { vref_mv := 1000, vcm_mv := 200 } ∧
    resolveD defaultPedestal (load_pedestals "ped.json" false pedFileA []).1 7
      = { pedestal_mv := 580 } ∧
    resolveD defaultPedestal (load_pedestals "ped.json" false pedFileA []).1 5
      = { pedestal_mv := 600 } := by
  have h7 := calib_C4 "evd_config.json" "ped.json" (by decide) (by decide)
    cfgFileA pedFileA (by decide) (by decide) 7
  have h5 := calib_C4 "evd_config.json" "ped.json" (by decide) (by decide)
    cfgFileA pedFileA (by decide) (by decide) 5
  exact ⟨h7.1 (by decide), h5.2.1 _ (by decide), h7.2.2.1 (by decide),
    h5.2.2.2 _ (by decide)⟩

/-- C5: on a simulated-data run (`is_mc` true) neither loader opens a
file (`Bool` component `false`) and both mappings are returned exactly as
they were, regardless of the configured paths. -/
theorem calib_C5 (pedestal_file configuration_file : String) (is_mc : Bool)
    (h : is_mc = true) (pcontents : List (ℕ × PedestalEntry))
    (ccontents : List (ℕ × ConfigEntry)) (pedestal : PedMap)
    (configuration : ConfigMap) :
    load_pedestals pedestal_file is_mc pcontents pedestal = (pedestal, false) ∧
    load_configurations configuration_file is_mc ccontents configuration
      = (configuration, false) := by
  subst h
  constructor
  · unfold load_pedestals
    rw [if_neg (by simp)]
  · unfold load_configurations
    rw [if_neg (by simp)]

theorem calib_C5_witness :
    load_pedestals "ped.json" true pedFileA [] = ([], false) ∧
    load_configurations "evd_config.json" true cfgFileA [] = ([], false) :=
  calib_C5 "ped.json" "evd_config.json" true rfl pedFileA cfgFileA [] []

/-- C6: the written hit array of a (completed) `run` has exactly one row
per packet that is both unmasked-valid and of `packet_type` 0; a chunk
with none writes an empty array. -/
theorem calib_C6 (res : Resources) (configuration : ConfigMap) (pedestal : PedMap)
    (next : ℕ) (packets : List Packet) (raw_hits : List (List RawHit)) (t0s : List ℚ)
    (out : RunOutput)
    (h : run res configuration pedestal next packets raw_hits t0s = some out) :
    out.hits.length = (packets.filter (fun p => p.valid && p.packet_type == 0)).length :=
  (run_spec res configuration pedestal next packets raw_hits t0s out h).1

/-- A chunk with no valid type-0 packets: one masked packet and one valid
packet of type 4. -/
def pktsNone : List Packet :=
  [{ valid := false, packet_type := 0, io_group := 1, io_channel := 1,
     chip_id := 1, channel_id := 1, dataword := 17 },
   { valid := true, packet_type := 4, io_group := 1, io_channel := 1,
     chip_id := 1, channel_id := 1, dataword := 99 }]

def outNone : RunOutput :=
  (run res0 [] [] 0 pktsNone [[]] []).getD defaultRunOutput

theorem calib_C6_witness :
    outNone.hits.length
      = (pktsNone.filter (fun p => p.valid && p.packet_type == 0)).length :=
  calib_C6 res0 [] [] 0 pktsNone [[]] [] outNone
    (option_eq_some_getD _ defaultRunOutput (by decide))

/-- C7: every completed `run` reserves `[next, next + n)` and sets each
row's `id` to the slice start plus the row index (dense, increasing); for
two sequential chunks the second starts at the first's end cursor, so all
ids of the first chunk are strictly below all ids of the second. -/
theorem calib_C7 (res : Resources) (configuration : ConfigMap) (pedestal : PedMap)
    (next : ℕ) (p1 : List Packet) (r1 : List (List RawHit)) (t1 : List ℚ)
    (p2 : List Packet) (r2 : List (List RawHit)) (t2 : List ℚ) (out1 out2 : RunOutput)
    (h1 : run res configuration pedestal next p1 r1 t1 = some out1)
    (h2 : run res out1.configuration out1.pedestal out1.next p2 r2 t2 = some out2) :
    (∀ i, i < out1.hits.length → (out1.hits.getD i defaultCalibHit).id = next + i) ∧
    (∀ j, j < out2.hits.length →
      (out2.hits.getD j defaultCalibHit).id = out1.next + j) ∧
    out1.next = next + out1.hits.length ∧
    (∀ a ∈ out1.hits, ∀ b ∈ out2.hits, a.id < b.id) := by
  obtain ⟨l1, n1, s1⟩ := run_spec res configuration pedestal next p1 r1 t1 out1 h1
  obtain ⟨l2, n2, s2⟩ :=
    run_spec res out1.configuration out1.pedestal out1.next p2 r2 t2 out2 h2
  have id1 : ∀ i, i < out1.hits.length → (out1.hits.getD i defaultCalibHit).id = next + i := by
    intro i hi
    rw [s1 i hi]
    rfl
  have id2 : ∀ j, j < out2.hits.length →
      (out2.hits.getD j defaultCalibHit).id = out1.next + j := by
    intro j hj
    rw [s2 j hj]
    rfl
  refine ⟨id1, id2, by omega, ?_⟩
  intro a ha b hb
  obtain ⟨i, hi, hia⟩ := List.mem_iff_getElem.mp ha
  obtain ⟨j, hj, hjb⟩ := List.mem_iff_getElem.mp hb
  have ha2 : a.id = next + i := by
    rw [← hia, ← List.getD_eq_getElem _ defaultCalibHit hi]
    exact id1 i hi
  have hb2 : b.id = out1.next + j := by
    rw [← hjb, ← List.getD_eq_getElem _ defaultCalibHit hj]
    exact id2 j hj
  omega

/-- First sequential chunk: three valid type-0 packets, three valid raw
hits. -/
def packetsB3 : List Packet := [packetA, packetA, packetA]

def rawB3 : List (List RawHit) :=
  [[{ valid := true, ts_pps := 10 }, { valid := true, ts_pps := 20 },
    { valid := true, ts_pps := 30 }]]

def t0B3 : List ℚ := [1]

def outB3 : RunOutput :=
  (run res0 [] [] 0 packetsB3 rawB3 t0B3).getD defaultRunOutput

/-- Second sequential chunk: five valid type-0 packets, five valid raw
hits, starting from the store state left by the first chunk. -/
def packetsB5 : List Packet := [packetA, packetA, packetA, packetA, packetA]

def rawB5 : List (List RawHit) :=
  [[{ valid := true, ts_pps := 10 }, { valid := true, ts_pps := 20 },
    { valid := true, ts_pps := 30 }, { valid := true, ts_pps := 40 },
    { valid := true, ts_pps := 50 }]]

def t0B5 : List ℚ := [1]

def outB5 : RunOutput :=
  (run res0 outB3.configuration outB3.pedestal outB3.next packetsB5 rawB5 t0B5).getD
    defaultRunOutput

theorem calib_C7_witness :
    outB3.hits.map CalibHit.id = [0, 1, 2] ∧
    outB5.hits.map CalibHit.id = [3, 4, 5, 6, 7] ∧
    (outB5.hits.getD 0 defaultCalibHit).id = outB3.next + 0 := by
  refine ⟨by decide, by decide, ?_⟩
  exact (calib_C7 res0 [] [] 0 packetsB3 rawB3 t0B3 packetsB5 rawB5 t0B5 outB3 outB5
    (option_eq_some_getD _ defaultRunOutput (by decide))
    (option_eq_some_getD _ defaultRunOutput (by decide))).2.1 0 (by decide)

/-- C8: each written hit's position comes from the geometry lookups with
the axis swap of the source: drift distance is
`t_drift * (v_drift * crs_ticks)`, stored `x` is the z-from-drift value,
stored `y` is the pixel-xy second component, stored `z` is the pixel-xy
first component. -/
theorem calib_C8 (res : Resources) (configuration : ConfigMap) (pedestal : PedMap)
    (next : ℕ) (packets : List Packet) (raw_hits : List (List RawHit)) (t0s : List ℚ)
    (out : RunOutput)
    (h : run res configuration pedestal next packets raw_hits t0s = some out)
    (i : ℕ) (hi : i < out.hits.length) :
    (out.hits.getD i defaultCalibHit).x
      = res.get_z_coordinate ((packetsArr packets).getD i defaultPacket).io_group
          ((packetsArr packets).getD i defaultPacket).io_channel
          ((out.hits.getD i defaultCalibHit).t_drift * (res.v_drift * res.crs_ticks)) ∧
    (out.hits.getD i defaultCalibHit).y
      = (res.pixel_xy ((packetsArr packets).getD i defaultPacket).io_group
          ((packetsArr packets).getD i defaultPacket).io_channel
          ((packetsArr packets).getD i defaultPacket).chip_id
          ((packetsArr packets).getD i defaultPacket).channel_id).2 ∧
    (out.hits.getD i defaultCalibHit).z
      = (res.pixel_xy ((packetsArr packets).getD i defaultPacket).io_group
          ((packetsArr packets).getD i defaultPacket).io_channel
          ((packetsArr packets).getD i defaultPacket).chip_id
          ((packetsArr packets).getD i defaultPacket).channel_id).1 := by
  rw [(run_spec res configuration pedestal next packets raw_hits t0s out h).2.2 i hi]
  exact ⟨rfl, rfl, rfl⟩

theorem calib_C8_witness :
    (outA.hits.getD 0 defaultCalibHit).x
      = res0.get_z_coordinate ((packetsArr chunkPackets).getD 0 defaultPacket).io_group
          ((packetsArr chunkPackets).getD 0 defaultPacket).io_channel
          ((outA.hits.getD 0 defaultCalibHit).t_drift * (res0.v_drift * res0.crs_ticks)) ∧
    (outA.hits.getD 0 defaultCalibHit).y
      = (res0.pixel_xy ((packetsArr chunkPackets).getD 0 defaultPacket).io_group
          ((packetsArr chunkPackets).getD 0 defaultPacket).io_channel
          ((packetsArr chunkPackets).getD 0 defaultPacket).chip_id
          ((packetsArr chunkPackets).getD 0 defaultPacket).channel_id).2 ∧
    (outA.hits.getD 0 defaultCalibHit).z
      = (res0.pixel_xy ((packetsArr chunkPackets).getD 0 defaultPacket).io_group
          ((packetsArr chunkPackets).getD 0 defaultPacket).io_channel
          ((packetsArr chunkPackets).getD 0 defaultPacket).chip_id
          ((packetsArr chunkPackets).getD 0 defaultPacket).channel_id).1 :=
  calib_C8 res0 [] [] 0 chunkPackets chunkRawHits chunkT0s outA
    (option_eq_some_getD _ defaultRunOutput (by decide)) 0 (by decide)

/-- C9 (counterexample): the claim says resolving a key absent from the
mappings leaves them unchanged.  The mappings are `defaultdict`s: running
the well-formed two-packet chunk against empty mappings inserts the
packets' (previously absent) channel key into both, so both come back
non-empty. -/
theorem calib_C9_counterexample :
    (run res0 [] [] 0 chunkPackets chunkRawHits chunkT0s).isSome = true ∧
    ((run res0 [] [] 0 chunkPackets chunkRawHits chunkT0s).getD
        defaultRunOutput).configuration ≠ [] ∧
    ((run res0 [] [] 0 chunkPackets chunkRawHits chunkT0s).getD
        defaultRunOutput).pedestal ≠ [] := by
  refine ⟨by decide, ?_, ?_⟩ <;> with_unfolding_all decide

/-- C9 (amended): processing a chunk may append defaulted entries for
previously-unseen keys to the `defaultdict` mappings (insert-on-miss),
but it never changes what any key resolves to: lookup-with-fallback over
both mappings is pointwise identical before and after `run`, so loaded
override entries are never altered. -/
theorem calib_C9_amended (res : Resources) (configuration : ConfigMap) (pedestal : PedMap)
    (next : ℕ) (packets : List Packet) (raw_hits : List (List RawHit)) (t0s : List ℚ)
    (out : RunOutput)
    (h : run res configuration pedestal next packets raw_hits t0s = some out) :
    (∀ k, resolveD defaultConfiguration out.configuration k
        = resolveD defaultConfiguration configuration k) ∧
    (∀ k, resolveD defaultPedestal out.pedestal k = resolveD defaultPedestal pedestal k) :=
  run_maps_spec res configuration pedestal next packets raw_hits t0s out h

theorem calib_C9_amended_witness :
    resolveD defaultConfiguration outA.configuration 4242
      = resolveD defaultConfiguration [] 4242 ∧
    resolveD defaultPedestal outA.pedestal 4242 = resolveD defaultPedestal [] 4242 := by
  have h := calib_C9_amended res0 [] [] 0 chunkPackets chunkRawHits chunkT0s outA
    (option_eq_some_getD _ defaultRunOutput (by decide))
  exact ⟨h.1 4242, h.2 4242⟩

/-- C10: the per-hit t0 buffer is an integer (`ℤ`-valued) array whose
aligned fill stores, for each event, the truncation-toward-zero of the
event's t0 (any fractional part discarded), and each written hit's
`t_drift` is its `ts_pps` minus that integer-converted t0. -/
theorem calib_C10 (res : Resources) (configuration : ConfigMap) (pedestal : PedMap)
    (next : ℕ) (packets : List Packet) (raw_hits : List (List RawHit)) (t0s : List ℚ)
    (out : RunOutput) (hlen : raw_hits.length = t0s.length)
    (h : run res configuration pedestal next packets raw_hits t0s = some out)
    (i : ℕ) (hi : i < out.hits.length) :
    hitT0 raw_hits t0s = (t0Blocks raw_hits t0s).flatten ∧
    (out.hits.getD i defaultCalibHit).t_drift
      = (((rawHitsArr raw_hits).getD i defaultRawHit).ts_pps : ℚ)
          - (((hitT0 raw_hits t0s).getD i 0 : ℤ) : ℚ) := by
  refine ⟨hitT0_aligned raw_hits t0s hlen, ?_⟩
  rw [(run_spec res configuration pedestal next packets raw_hits t0s out h).2.2 i hi]
  rfl

/-- A one-event chunk with a fractional t0 (7/2). -/
def rawC10 : List (List RawHit) := [[{ valid := true, ts_pps := 10 }]]

def t0sC10 : List ℚ := [7 / 2]

def outC10 : RunOutput :=
  (run res0 [] [] 0 [packetA] rawC10 t0sC10).getD defaultRunOutput

theorem calib_C10_witness :
    hitT0 rawC10 t0sC10 = (t0Blocks rawC10 t0sC10).flatten ∧
    (outC10.hits.getD 0 defaultCalibHit).t_drift
      = (((rawHitsArr rawC10).getD 0 defaultRawHit).ts_pps : ℚ)
          - (((hitT0 rawC10 t0sC10).getD 0 0 : ℤ) : ℚ) :=
  calib_C10 res0 [] [] 0 [packetA] rawC10 t0sC10 outC10 (by decide)
    (option_eq_some_getD _ defaultRunOutput (by decide)) 0 (by with_unfolding_all decide)
